import Mathlib

/-!
# User directory core: a shallow embedding of `pkg/service/im/resource/user_control.go`

The Go file drives a relational store through the gorm query builder.  The
embedding keeps the control flow of every function of the file and makes the
store explicit:

* `Store` holds the rows of the user table and of the user/group binding table;
* `Session` is a connection to the store: the committed rows, the rows seen by
  the open transaction (if any), and the trace of the statements sent so far;
* `DB` is a gorm handle.  The query methods of gorm do not change their
  receiver: each returns a new handle that carries the accumulated conditions
  and the `Error` of the statement it ran.  `Where`, `Table`, `Offset`, `Limit`
  only build the handle; `Delete`, `Updates`, `Take`, `Find`, `Count` run a
  statement at once, with the conditions accumulated up to that point; a
  writing statement on a handle that is not bound to a transaction runs between
  a begin and a commit of its own;
* `Env` gathers what the file takes from outside: the clock, the storage error
  (if any) the store answers to each kind of statement, and the helpers whose
  code is in other files (limit clamping, JSON rendering, group resolution).
-/

namespace IM

/-! ## Errors -/

/-- The gRPC status codes the file uses. -/
inductive Code where
  | InvalidArgument
  | NotFound
  | Internal
deriving DecidableEq, Repr

/-- The errors that travel through the file: a gRPC status built by
`status.Errorf`; gorm's own errors (record not found, no valid transaction,
missing WHERE clause); any other error answered by the store; and two errors
collected one after the other in the same handle. -/
inductive Err where
  | status (code : Code) (msg : String)
  | recordNotFound
  | invalidTransaction
  | missingWhereClause
  | storage (msg : String)
  | both (first second : Err)
deriving DecidableEq, Repr

/-! ## Rows and the store -/

/-- Modelled from the spec: the row type `models.User`, declared outside the
files at hand.  The spec lists "user id, username, email, phone number,
description, password, extra attributes (serialized as text), status,
status-change timestamp, create/update timestamps"; `Extra` is a nullable text
(the file writes it through `strutil.NewString`). -/
structure User where
  UserId : String
  Username : String
  Password : String
  Email : String
  PhoneNumber : String
  Description : String
  Status : String
  Extra : Option String
  CreateTime : Nat
  UpdateTime : Nat
  StatusTime : Nat
deriving DecidableEq, Repr

/-- Modelled from the spec: the row type `models.UserGroupBinding`, declared
outside the files at hand: "a relation row linking one user id to one group
id". -/
structure UserGroupBinding where
  GroupId : String
  UserId : String
deriving DecidableEq, Repr

/-- Modelled from the spec: the record type `models.Group`, declared outside the
files at hand: "a named collection entity, referenced only by id". -/
structure Group where
  GroupId : String
  GroupName : String
deriving DecidableEq, Repr

/-- The rows of the two tables the file reads and writes. -/
structure Store where
  users : List User
  bindings : List UserGroupBinding
deriving DecidableEq, Repr

/-- Modelled from the spec: the constant `constants.StatusDeleted`, the value of
the status column of a soft-deleted user ("status (enumerated: active | deleted
| other lifecycle states)"). -/
def StatusDeleted : String := "deleted"

/-- The columns of the user table named by the `constants.Column*` constants
the file uses. -/
inductive Column where
  | ColumnUserId
  | ColumnUsername
  | ColumnEmail
  | ColumnPhoneNumber
  | ColumnDescription
  | ColumnStatus
  | ColumnExtra
  | ColumnCreateTime
  | ColumnUpdateTime
  | ColumnStatusTime
deriving DecidableEq, Repr

/-- A value written to or read from a column: a text, a nullable text
(`*string`), or a time. -/
inductive Value where
  | str (s : String)
  | strPtr (s : Option String)
  | time (t : Nat)
deriving DecidableEq, Repr

/-- The value a row holds in a column. -/
def User.get (u : User) : Column → Value
  | .ColumnUserId => .str u.UserId
  | .ColumnUsername => .str u.Username
  | .ColumnEmail => .str u.Email
  | .ColumnPhoneNumber => .str u.PhoneNumber
  | .ColumnDescription => .str u.Description
  | .ColumnStatus => .str u.Status
  | .ColumnExtra => .strPtr u.Extra
  | .ColumnCreateTime => .time u.CreateTime
  | .ColumnUpdateTime => .time u.UpdateTime
  | .ColumnStatusTime => .time u.StatusTime

/-- The row after `SET column = value`; a value of the wrong type for the column
leaves the row as it is. -/
def User.set (u : User) : Column → Value → User
  | .ColumnUserId, .str s => { u with UserId := s }
  | .ColumnUsername, .str s => { u with Username := s }
  | .ColumnEmail, .str s => { u with Email := s }
  | .ColumnPhoneNumber, .str s => { u with PhoneNumber := s }
  | .ColumnDescription, .str s => { u with Description := s }
  | .ColumnStatus, .str s => { u with Status := s }
  | .ColumnExtra, .strPtr s => { u with Extra := s }
  | .ColumnCreateTime, .time t => { u with CreateTime := t }
  | .ColumnUpdateTime, .time t => { u with UpdateTime := t }
  | .ColumnStatusTime, .time t => { u with StatusTime := t }
  | _, _ => u

/-- A Go `map[string]interface{}` of column values, as built by the file:
one entry per key. -/
abbrev Attributes := List (Column × Value)

/-- The assignment `attributes[key] = value` on a Go map. -/
def setAttr (m : Attributes) (key : Column) (value : Value) : Attributes :=
  (m.filter (fun kv => kv.1 != key)) ++ [(key, value)]

/-- The row after `SET` of every entry of the map. -/
def User.setAll (u : User) (m : Attributes) : User :=
  m.foldl (fun r kv => r.set kv.1 kv.2) u

/-- A condition of a `WHERE` clause on the user id or another text column:
`column in (?)` with a list, or `column = ?` with one value. -/
inductive Cond where
  | In (col : Column) (vals : List String)
  | Eq (col : Column) (val : String)
deriving DecidableEq, Repr

/-- Whether a user row satisfies a condition. -/
def Cond.holds (c : Cond) (u : User) : Bool :=
  match c with
  | .In col vals => vals.any (fun v => u.get col == Value.str v)
  | .Eq col val => u.get col == Value.str val

/-- Whether a binding row satisfies a condition; the only column of the binding
table the file names is the user id. -/
def Cond.holdsBinding (c : Cond) (b : UserGroupBinding) : Bool :=
  match c with
  | .In .ColumnUserId vals => vals.any (fun v => b.UserId == v)
  | .Eq .ColumnUserId val => b.UserId == val
  | _ => false

/-! ## Statements, sessions and the environment -/

/-- Ascending or descending order. -/
inductive Dir where
  | asc
  | desc
deriving DecidableEq, Repr

/-- The kinds of statement the file sends to the store. -/
inductive Op where
  | begin
  | rollback
  | commit
  | deleteBindings
  | updateUsers
  | takeUser
  | findUsers
  | countUsers
deriving DecidableEq, Repr

/-- A statement as sent to the store, with the conditions it carries. -/
inductive Stmt where
  | begin
  | rollback
  | commit
  | deleteBindings (conds : List Cond)
  | updateUsers (conds : List Cond) (attrs : Attributes)
  | takeUser (key : Option String)
  | findUsers (conds : List Cond) (order : Option (Column × Dir))
      (offset : Option Nat) (limit : Option Nat)
  | countUsers (conds : List Cond)
deriving DecidableEq, Repr

/-- What the file takes from outside. -/
structure Env where
  /-- The reading of `time.Now()`. -/
  now : Nat
  /-- The storage error, if any, the store answers to a statement of each kind. -/
  fault : Op → Option Err
  /-- Whether the global handle refuses an update without condition
  (gorm's `BlockGlobalUpdate`, off unless `pkg/db` turns it on). -/
  blockGlobalUpdate : Bool
  /-- The helper `jsonutil.ToString` on the extra attributes of a request. -/
  ToString : List (String × String) → String
  /-- The helper `db.GetLimit`: the effective limit of a requested limit. -/
  GetLimit : Nat → Nat
  /-- The helper `db.GetOffset`: the effective offset of a requested offset. -/
  GetOffset : Nat → Nat
  /-- The resolver `GetUserIdsByGroupIds` of the same package. -/
  GetUserIdsByGroupIds : List String → Except Err (List String)
  /-- The resolver `GetGroupsByUserIds` of the same package. -/
  GetGroupsByUserIds : List String → Except Err (List Group)

/-- A connection to the store. -/
structure Session where
  /-- The committed rows. -/
  store : Store
  /-- The rows as the open transaction sees them, when one is open. -/
  tx : Option Store
  /-- The statements sent so far, oldest first. -/
  trace : List Stmt
deriving DecidableEq, Repr

/-- A connection on a store, before any statement. -/
def Session.fresh (s : Store) : Session :=
  { store := s, tx := none, trace := [] }

/-- The rows a statement of the session works on. -/
def Session.rows (σ : Session) : Store :=
  σ.tx.getD σ.store

/-- The session after a statement has written new rows: inside a transaction
the rows stay private to it, outside they are committed at once. -/
def Session.write (σ : Session) (s : Store) : Session :=
  match σ.tx with
  | some _ => { σ with tx := some s }
  | none => { σ with store := s }

/-- The session after one more statement has been sent. -/
def Session.sent (σ : Session) (st : Stmt) : Session :=
  { σ with trace := σ.trace ++ [st] }

/-! ## The gorm handle -/

/-- The name of a table (`constants.TableUser`). -/
inductive TableName where
  | TableUser
deriving DecidableEq, Repr

/-- A gorm handle (`*gorm.DB`, of the library the file drives the store with):
the error of the statement that produced it, whether it is bound to a
transaction opened by `Begin`, and the clauses accumulated for the next
statement. -/
structure DB where
  Error : Option Err := none
  bound : Bool := false
  blockGlobalUpdate : Bool := false
  table : Option TableName := none
  conds : List Cond := []
  order : Option (Column × Dir) := none
  offset : Option Nat := none
  limit : Option Nat := none
deriving DecidableEq, Repr

/-- The global handle `db.Global()`: bound to no transaction. -/
def Global (env : Env) : DB :=
  { blockGlobalUpdate := env.blockGlobalUpdate }

/-- The method `AddError`: the error is recorded in the handle, after the
errors already there; record-not-found takes their place. -/
def DB.AddError (db : DB) (err : Err) : DB :=
  { db with
    Error := some
      (match db.Error with
       | some e => if err = Err.recordNotFound then err else Err.both e err
       | none => err) }

/-- The chain method `Table`: a new handle on the table. -/
def DB.Table (db : DB) (t : TableName) : DB :=
  { db with table := some t }

/-- The chain method `Where`: a new handle with one more condition; the error of
the receiver is kept, no statement is run. -/
def DB.Where (db : DB) (c : Cond) : DB :=
  { db with conds := db.conds ++ [c] }

/-- The chain method `Offset`. -/
def DB.Offset (db : DB) (n : Nat) : DB :=
  { db with offset := some n }

/-- The chain method `Limit`. -/
def DB.Limit (db : DB) (n : Nat) : DB :=
  { db with limit := some n }

/-- The method `Begin`: opens a transaction and returns the handle bound to it;
a failure is recorded in the `Error` of that handle. -/
def DB.Begin (db : DB) (env : Env) (σ : Session) : DB × Session :=
  let σ := σ.sent Stmt.begin
  match env.fault Op.begin with
  | some err => ({ db with bound := true }.AddError err, σ)
  | none => ({ db with bound := true }, { σ with tx := some σ.store })

/-- The method `Rollback`: the rows of the open transaction are dropped.  On a
handle without a transaction (none was begun, or `Begin` failed) nothing is
sent and the handle gets the error "no valid transaction". -/
def DB.Rollback (db : DB) (env : Env) (σ : Session) : DB × Session :=
  if db.bound && σ.tx.isSome then
    let σ := σ.sent Stmt.rollback
    match env.fault Op.rollback with
    | some err => (db.AddError err, { σ with tx := none })
    | none => (db, { σ with tx := none })
  else
    (db.AddError Err.invalidTransaction, σ)

/-- The method `Commit`: the rows of the open transaction become the committed
rows, unless the store answers an error, which is recorded in the handle.  On a
handle without a transaction nothing is sent and the handle gets the error "no
valid transaction". -/
def DB.Commit (db : DB) (env : Env) (σ : Session) : DB × Session :=
  if db.bound && σ.tx.isSome then
    let σ := σ.sent Stmt.commit
    match env.fault Op.commit with
    | some err => (db.AddError err, { σ with tx := none })
    | none => (db, { σ with store := σ.rows, tx := none })
  else
    (db.AddError Err.invalidTransaction, σ)

/-- The first callback of a writing statement: a handle that is not bound to a
transaction opens one of its own around the statement.  The third component
tells whether it did. -/
def DB.beginOwn (db : DB) (env : Env) (σ : Session) : DB × Session × Bool :=
  if db.bound then (db, σ, false)
  else
    let σ := σ.sent Stmt.begin
    match env.fault Op.begin with
    | some err => (db.AddError err, σ, false)
    | none => (db, { σ with tx := some σ.store }, true)

/-- The last callback of a writing statement: the transaction the statement
opened for itself is committed, or rolled back when the handle carries an
error. -/
def DB.endOwn (db : DB) (env : Env) (started : Bool) (σ : Session) : DB × Session :=
  if started then
    match db.Error with
    | some _ => (db, { σ.sent Stmt.rollback with tx := none })
    | none =>
      let σ := σ.sent Stmt.commit
      match env.fault Op.commit with
      | some err => (db.AddError err, { σ with tx := none })
      | none => (db, { σ with store := σ.rows, tx := none })
  else (db, σ)

/-- The method `Delete(models.UserGroupBinding{}, cond)`: deletes at once the
binding rows that satisfy the conditions of the receiver and the inline
condition.  The outcome is in the handle RETURNED; the receiver is not
changed.  A handle that already carries an error sends no delete statement. -/
def DB.Delete (db : DB) (env : Env) (c : Cond) (σ : Session) : DB × Session :=
  let conds := db.conds ++ [c]
  let (db, σ, started) := db.beginOwn env σ
  let db :=
    if db.blockGlobalUpdate && conds.isEmpty then db.AddError Err.missingWhereClause else db
  let (db, σ) :=
    match db.Error with
    | some _ => (db, σ)
    | none =>
      let σ := σ.sent (Stmt.deleteBindings conds)
      match env.fault Op.deleteBindings with
      | some err => (db.AddError err, σ)
      | none =>
        let rows := σ.rows
        (db, σ.write { rows with
          bindings := rows.bindings.filter (fun b => !(conds.all (fun k => k.holdsBinding b))) })
  db.endOwn env started σ

/-- The method `Updates(attributes)` on the user table: updates at once the
user rows that satisfy the conditions accumulated in the receiver (every row
when there is none, unless the handle refuses updates without condition).
Outside a transaction the statement runs between a begin and a commit of its
own.  The outcome is in the handle returned. -/
def DB.Updates (db : DB) (env : Env) (attrs : Attributes) (σ : Session) : DB × Session :=
  let (db, σ, started) := db.beginOwn env σ
  let db :=
    if db.blockGlobalUpdate && db.conds.isEmpty then db.AddError Err.missingWhereClause else db
  let (db, σ) :=
    match db.Error with
    | some _ => (db, σ)
    | none =>
      let σ := σ.sent (Stmt.updateUsers db.conds attrs)
      match env.fault Op.updateUsers with
      | some err => (db.AddError err, σ)
      | none =>
        let rows := σ.rows
        (db, σ.write { rows with
          users := rows.users.map
            (fun u => if db.conds.all (fun k => k.holds u) then u.setAll attrs else u) })
  db.endOwn env started σ

/-- The method `Take(user)`: the lookup of one user row, which fills `user`.
The id in `user` is the key of the lookup, except when it is the zero value "":
then the query carries no condition and the first row of the table is taken.
No row gives gorm's record-not-found and leaves `user` as it was.  The second
component is `user` after the call. -/
def DB.Take (db : DB) (env : Env) (user : User) (σ : Session) : DB × User × Session :=
  match db.Error with
  | some _ => (db, user, σ)
  | none =>
    let σ := σ.sent (Stmt.takeUser (if user.UserId = "" then none else some user.UserId))
    match env.fault Op.takeUser with
    | some err => (db.AddError err, user, σ)
    | none =>
      match σ.rows.users.find? (fun u => user.UserId == "" || u.UserId == user.UserId) with
      | some u => (db, u, σ)
      | none => (db.AddError Err.recordNotFound, user, σ)

/-- Insertion of a row in a list ordered by creation time. -/
def orderedInsert (d : Dir) (u : User) : List User → List User
  | [] => [u]
  | v :: rest =>
    if (match d with
        | .asc => decide (u.CreateTime ≤ v.CreateTime)
        | .desc => decide (v.CreateTime ≤ u.CreateTime))
    then u :: v :: rest
    else v :: orderedInsert d u rest

/-- The rows in the order of an `ORDER BY` clause (rows with equal keys keep
their relative order); the file orders by creation time only. -/
def orderBy (order : Option (Column × Dir)) (rows : List User) : List User :=
  match order with
  | none => rows
  | some (_, d) => rows.foldr (orderedInsert d) []

/-- The rows left by `LIMIT n`. -/
def applyLimit (limit : Option Nat) (rows : List User) : List User :=
  match limit with
  | none => rows
  | some n => rows.take n

/-- The method `Find(&users)`: the user rows that satisfy the conditions, in
the order asked, after the offset and within the limit. -/
def DB.Find (db : DB) (env : Env) (σ : Session) : DB × List User × Session :=
  match db.Error with
  | some _ => (db, [], σ)
  | none =>
    let σ := σ.sent (Stmt.findUsers db.conds db.order db.offset db.limit)
    match env.fault Op.findUsers with
    | some err => (db.AddError err, [], σ)
    | none =>
      let rows := σ.rows.users.filter (fun u => db.conds.all (fun k => k.holds u))
      (db, applyLimit db.limit ((orderBy db.order rows).drop (db.offset.getD 0)), σ)

/-- The method `Count(&count)`: the number of user rows that satisfy the
conditions; offset and limit are not part of the handle it is called on. -/
def DB.Count (db : DB) (env : Env) (σ : Session) : DB × Nat × Session :=
  match db.Error with
  | some _ => (db, 0, σ)
  | none =>
    let σ := σ.sent (Stmt.countUsers db.conds)
    match env.fault Op.countUsers with
    | some err => (db.AddError err, 0, σ)
    | none =>
      (db, (σ.rows.users.filter (fun u => db.conds.all (fun k => k.holds u))).length, σ)

/-! ## Helpers of `pkg/util/strutil` and `pkg/db` -/

/-- The characters of a text without its leading and trailing white space. -/
def trimChars (cs : List Char) : List Char :=
  ((cs.dropWhile Char.isWhitespace).reverse.dropWhile Char.isWhitespace).reverse

/-- Modelled from the spec: the helper `strutil.SimplifyString`, whose code is
not in the files at hand.  The spec has the normalizer trim its input and has
an email "normalized to lowercase" before storage ("ALICE@X.com" is read back
as "alice@x.com"): the text is trimmed and put in lower case. -/
def SimplifyString (s : String) : String :=
  String.mk ((trimChars s.data).map Char.toLower)

/-- The loop of the list normalizer: entries are trimmed, empty ones dropped,
and an entry already kept is not kept twice. -/
def simplifyLoop : List String → List String → List String
  | [], acc => acc
  | x :: rest, acc =>
    let t := String.mk (trimChars x.data)
    if t = "" ∨ t ∈ acc then simplifyLoop rest acc else simplifyLoop rest (acc ++ [t])

/-- Modelled from the spec: the helper `strutil.SimplifyStringList`, whose code
is not in the files at hand: "given a sequence of raw strings, produce a
deduplicated, trimmed, order-preserving sequence with empty entries removed". -/
def SimplifyStringList (s : List String) : List String :=
  simplifyLoop s []

/-- Modelled from the spec: the helper `strutil.Contains`, whose code is not in
the files at hand: whether the list holds the text (the test behind "only the
intersection survives"). -/
def Contains (list : List String) (s : String) : Bool :=
  list.any (fun x => x == s)

/-- The helper `strutil.NewString`, whose code is not in the files at hand: a
pointer to the text. -/
def NewString (s : String) : Option String :=
  some s

/-! ## Requests and responses (`pkg/pb`) -/

/-- The request of `DeleteUsers`, with the field the file reads. -/
structure DeleteUsersRequest where
  UserId : List String
deriving DecidableEq, Repr

/-- The response of `DeleteUsers`. -/
structure DeleteUsersResponse where
  UserId : List String
deriving DecidableEq, Repr

/-- The request of `ModifyUser`, with the fields the file reads; `Extra` is a map
from text to text. -/
structure ModifyUserRequest where
  UserId : String
  Username : String
  Email : String
  PhoneNumber : String
  Description : String
  Extra : List (String × String)
deriving DecidableEq, Repr

/-- The response of `ModifyUser`. -/
structure ModifyUserResponse where
  UserId : String
deriving DecidableEq, Repr

/-- The request of `ListUsers`, with the fields the file reads; `Limit` and
`Offset` are `uint32`.  `SortDir` stands for what the spec calls the "explicit
ascending/descending flag", absent when the caller supplies none. -/
structure ListUsersRequest where
  GroupId : List String
  UserId : List String
  Username : List String
  Email : List String
  PhoneNumber : List String
  Status : List String
  SortDir : Option Dir
  Limit : Nat
  Offset : Nat
deriving DecidableEq, Repr

/-- Modelled from the spec: the message type `pb.User`, declared outside the
files at hand: the user record without its password ("stored, never
returned"). -/
structure PbUser where
  UserId : String
  Username : String
  Email : String
  PhoneNumber : String
  Description : String
  Status : String
  Extra : Option String
  CreateTime : Nat
  UpdateTime : Nat
  StatusTime : Nat
deriving DecidableEq, Repr

/-- Modelled from the spec: the message type `pb.Group`, declared outside the
files at hand: the group record as returned to the caller. -/
structure PbGroup where
  GroupId : String
  GroupName : String
deriving DecidableEq, Repr

/-- A user with its groups (`pb.UserWithGroup`). -/
structure PbUserWithGroup where
  User : PbUser
  GroupSet : List PbGroup
deriving DecidableEq, Repr

/-- The response of `ListUsers`; `Total` is a `uint32`. -/
structure ListUsersResponse where
  UserSet : List PbUser
  Total : Nat
deriving DecidableEq, Repr

/-- The response of `ListUsersWithGroup`. -/
structure ListUsersWithGroupResponse where
  UserSet : List PbUserWithGroup
  Total : Nat
deriving DecidableEq, Repr

/-- Modelled from the spec: the conversion `(*models.User).ToPB`, whose code is
not in the files at hand: the fields of the row, the password left out. -/
def User.ToPB (u : User) : PbUser :=
  { UserId := u.UserId, Username := u.Username, Email := u.Email,
    PhoneNumber := u.PhoneNumber, Description := u.Description, Status := u.Status,
    Extra := u.Extra, CreateTime := u.CreateTime, UpdateTime := u.UpdateTime,
    StatusTime := u.StatusTime }

/-- Modelled from the spec: the conversion `(*models.Group).ToPB`, whose code is
not in the files at hand: the fields of the group record. -/
def Group.ToPB (g : Group) : PbGroup :=
  { GroupId := g.GroupId, GroupName := g.GroupName }

/-- The wrapper `db.GetChain` of `pkg/db` around a gorm handle: the chain
methods of gorm remain those of the handle. -/
def GetChain (db : DB) : DB :=
  db

/-- Modelled from the spec: the chain method `AddQueryOrderDir` of `pkg/db`,
whose code is not in the files at hand: the rows are ordered by the default
column, in the direction the caller asks for, "otherwise defaults to
descending (newest first)". -/
def DB.AddQueryOrderDir (db : DB) (req : ListUsersRequest) (defaultColumn : Column) : DB :=
  { db with order := some (defaultColumn, req.SortDir.getD Dir.desc) }

/-- One `IN` condition for a filter of the request, none when the filter is
empty. -/
def DB.filterIn (db : DB) (col : Column) (vals : List String) : DB :=
  if vals.length > 0 then db.Where (Cond.In col vals) else db

/-- Modelled from the spec: the chain method `BuildFilterConditions` of
`pkg/db`, whose code is not in the files at hand: "each non-empty normalized
field becomes an IN predicate on its column; fields left empty are omitted (no
predicate)".  The group filter has no column in the user table: the caller
turns it into user ids first. -/
def DB.BuildFilterConditions (db : DB) (req : ListUsersRequest) (_table : TableName) : DB :=
  ((((db.filterIn .ColumnUserId req.UserId).filterIn .ColumnUsername req.Username).filterIn
    .ColumnEmail req.Email).filterIn .ColumnPhoneNumber req.PhoneNumber).filterIn
    .ColumnStatus req.Status

/-! ## The functions of `user_control.go` -/

/-- The function `DeleteUsers`. -/
def DeleteUsers (env : Env) (req : DeleteUsersRequest) (σ : Session) :
    Except Err DeleteUsersResponse × Session :=
  let userIds := req.UserId
  if userIds.length == 0 then
    (.error (Err.status Code.InvalidArgument "empty user id"), σ)
  else
    let (tx, σ) := (Global env).Begin env σ
    -- the handle returned by Delete, which carries its error, is dropped
    let (_, σ) := tx.Delete env (Cond.In .ColumnUserId userIds) σ
    -- the error read here is the one of the handle returned by Begin
    match tx.Error with
    | some err =>
      let (_, σ) := tx.Rollback env σ
      (.error err, σ)
    | none =>
      let now := env.now
      let attributes : Attributes :=
        setAttr (setAttr (setAttr [] .ColumnStatusTime (.time now)) .ColumnUpdateTime (.time now))
          .ColumnStatus (.str StatusDeleted)
      let (r, σ) :=
        ((tx.Table .TableUser).Where (Cond.In .ColumnUserId userIds)).Updates env attributes σ
      match r.Error with
      | some err =>
        let (_, σ) := tx.Rollback env σ
        (.error err, σ)
      | none =>
        let (r, σ) := tx.Commit env σ
        match r.Error with
        | some err => (.error err, σ)
        | none => (.ok { UserId := userIds }, σ)

/-- The function `GetUser`. -/
def GetUser (env : Env) (userId : String) (σ : Session) : Except Err User × Session :=
  let user : User :=
    { UserId := userId, Username := "", Password := "", Email := "", PhoneNumber := "",
      Description := "", Status := "", Extra := none, CreateTime := 0, UpdateTime := 0,
      StatusTime := 0 }
  let (r, user, σ) := ((Global env).Table .TableUser).Take env user σ
  match r.Error with
  | some err => (.error err, σ)
  | none => (.ok user, σ)

/-- The map of columns to write that `ModifyUser` builds from its request. -/
def modifyAttributes (env : Env) (req : ModifyUserRequest) : Attributes :=
  let attributes : Attributes := []
  let attributes :=
    if req.Username != "" then setAttr attributes .ColumnUsername (.str req.Username)
    else attributes
  let attributes :=
    if req.Description != "" then setAttr attributes .ColumnDescription (.str req.Description)
    else attributes
  let attributes :=
    if req.Email != "" then setAttr attributes .ColumnEmail (.str (SimplifyString req.Email))
    else attributes
  let attributes :=
    if req.PhoneNumber != "" then
      setAttr attributes .ColumnPhoneNumber (.str (SimplifyString req.PhoneNumber))
    else attributes
  let attributes :=
    if req.Extra.length > 0 then
      setAttr attributes .ColumnExtra (.strPtr (NewString (env.ToString req.Extra)))
    else attributes
  setAttr attributes .ColumnUpdateTime (.time env.now)

/-- The function `ModifyUser`.  `Updates` comes before `Where` in the chain:
the statement runs with the conditions accumulated up to `Updates`, that is
none, and `Where` only adds a condition to the handle returned. -/
def ModifyUser (env : Env) (req : ModifyUserRequest) (σ : Session) :
    Except Err ModifyUserResponse × Session :=
  let userId := req.UserId
  match GetUser env userId σ with
  | (.error err, σ) => (.error err, σ)
  | (.ok _, σ) =>
    let attributes := modifyAttributes env req
    let (r, σ) := ((Global env).Table .TableUser).Updates env attributes σ
    let r := r.Where (Cond.Eq .ColumnUserId userId)
    match r.Error with
    | some err => (.error err, σ)
    | none => (.ok { UserId := userId }, σ)

/-- The loop of `ListUsers` that keeps the requested user ids found among the
resolved ones, in the order of the request. -/
def inUserIds (userIds : List String) : List String → List String → List String
  | [], acc => acc
  | userId :: rest, acc =>
    if Contains userIds userId then inUserIds userIds rest (acc ++ [userId])
    else inUserIds userIds rest acc

/-- The loop that converts the rows of a page. -/
def toPbUsers : List User → List PbUser → List PbUser
  | [], acc => acc
  | user :: rest, acc => toPbUsers rest (acc ++ [user.ToPB])

/-- The second half of `ListUsers`: the page query, then the count query. -/
def listQueries (env : Env) (req : ListUsersRequest) (limit offset : Nat) (σ : Session) :
    Except Err ListUsersResponse × Session :=
  let (r, users, σ) :=
    (((((GetChain ((Global env).Table .TableUser)).AddQueryOrderDir req
      .ColumnCreateTime).BuildFilterConditions req .TableUser).Offset offset).Limit limit).Find
      env σ
  match r.Error with
  | some err => (.error err, σ)
  | none =>
    let (r, count, σ) :=
      ((GetChain ((Global env).Table .TableUser)).BuildFilterConditions req .TableUser).Count
        env σ
    match r.Error with
    | some err => (.error err, σ)
    | none => (.ok { UserSet := toPbUsers users [], Total := count % 2 ^ 32 }, σ)

/-- The request of `ListUsers` after its six filters have been normalized. -/
def normalize (req : ListUsersRequest) : ListUsersRequest :=
  { req with
    GroupId := SimplifyStringList req.GroupId
    UserId := SimplifyStringList req.UserId
    Username := SimplifyStringList req.Username
    Email := SimplifyStringList req.Email
    PhoneNumber := SimplifyStringList req.PhoneNumber
    Status := SimplifyStringList req.Status }

/-- The function `ListUsers`. -/
def ListUsers (env : Env) (req : ListUsersRequest) (σ : Session) :
    Except Err ListUsersResponse × Session :=
  let req := normalize req
  let limit := env.GetLimit req.Limit
  let offset := env.GetOffset req.Offset
  if req.GroupId.length > 0 then
    match env.GetUserIdsByGroupIds req.GroupId with
    | .error err => (.error err, σ)
    | .ok userIds =>
      let req :=
        if req.UserId.length == 0 then { req with UserId := userIds }
        else { req with UserId := inUserIds userIds req.UserId [] }
      if req.UserId.length == 0 then
        (.ok { UserSet := [], Total := 0 }, σ)
      else
        listQueries env req limit offset σ
  else
    listQueries env req limit offset σ

/-- The inner loop of `ListUsersWithGroup` that converts the groups of a user. -/
def toPbGroups : List Group → List PbGroup → List PbGroup
  | [], acc => acc
  | group :: rest, acc => toPbGroups rest (acc ++ [group.ToPB])

/-- The outer loop of `ListUsersWithGroup`: one group resolution per user of
the page, in the order of the page; the first failure ends the loop. -/
def withGroups (env : Env) : List PbUser → List PbUserWithGroup →
    Except Err (List PbUserWithGroup)
  | [], acc => .ok acc
  | pbUser :: rest, acc =>
    match env.GetGroupsByUserIds [pbUser.UserId] with
    | .error err => .error err
    | .ok groups =>
      withGroups env rest (acc ++ [{ User := pbUser, GroupSet := toPbGroups groups [] }])

/-- The function `ListUsersWithGroup`. -/
def ListUsersWithGroup (env : Env) (req : ListUsersRequest) (σ : Session) :
    Except Err ListUsersWithGroupResponse × Session :=
  match ListUsers env req σ with
  | (.error err, σ) => (.error err, σ)
  | (.ok response, σ) =>
    match withGroups env response.UserSet [] with
    | .error err => (.error err, σ)
    | .ok userWithGroups => (.ok { UserSet := userWithGroups, Total := response.Total }, σ)

/-! ## Reference definitions for the listing functions -/


/-- The condition a filter of the request contributes: one `IN` condition when
the filter is non-empty, none otherwise. -/
def inCond (col : Column) (vals : List String) : List Cond :=
  if vals.length > 0 then [Cond.In col vals] else []

/-- The conditions `BuildFilterConditions` adds for a request, in order. -/
def filterConds (req : ListUsersRequest) : List Cond :=
  inCond .ColumnUserId req.UserId ++ inCond .ColumnUsername req.Username ++
    inCond .ColumnEmail req.Email ++ inCond .ColumnPhoneNumber req.PhoneNumber ++
    inCond .ColumnStatus req.Status

/-- The column a condition is on. -/
def Cond.col : Cond → Column
  | .In col _ => col
  | .Eq col _ => col

/-- The conditions of a list request on the columns other than the user id, in
the words of the spec: one `IN` predicate for each non-empty normalized filter
on the username, the email, the phone number and the status. -/
def specOtherConds (req : ListUsersRequest) : List Cond :=
  inCond .ColumnUsername (SimplifyStringList req.Username) ++
    inCond .ColumnEmail (SimplifyStringList req.Email) ++
    inCond .ColumnPhoneNumber (SimplifyStringList req.PhoneNumber) ++
    inCond .ColumnStatus (SimplifyStringList req.Status)

/-- The user-id filter of a group-scoped listing, in the words of the spec: the
resolved members when the caller names no user id, otherwise the requested ids
that are among the resolved members, in the order of the request ("only the
intersection survives, not the union"). -/
def specScopedUserIds (requested members : List String) : List String :=
  if requested = [] then members else requested.filter (fun x => decide (x ∈ members))

/-- Whether a value passes a filter, in the words of the spec: an empty filter
is no predicate, a non-empty one is an `IN` predicate. -/
def specPasses (filter : List String) (v : String) : Bool :=
  filter.isEmpty || decide (v ∈ filter)

/-- Whether a user row matches the filter predicates of a list request, in the
words of the spec: every normalized filter on a column is passed, and when
groups are named the user is among the members resolved for them. -/
def specMatches (env : Env) (req : ListUsersRequest) (u : User) : Bool :=
  specPasses (SimplifyStringList req.UserId) u.UserId &&
  specPasses (SimplifyStringList req.Username) u.Username &&
  specPasses (SimplifyStringList req.Email) u.Email &&
  specPasses (SimplifyStringList req.PhoneNumber) u.PhoneNumber &&
  specPasses (SimplifyStringList req.Status) u.Status &&
  ((SimplifyStringList req.GroupId).isEmpty ||
    match env.GetUserIdsByGroupIds (SimplifyStringList req.GroupId) with
    | .ok members => decide (u.UserId ∈ members)
    | .error _ => false)

/-! ## Concrete environments and stores -/

/-- An environment in which the store answers no error, no group has a member
and no user has a group. -/
def envQuiet : Env :=
  { now := 100
    fault := fun _ => none
    blockGlobalUpdate := false
    ToString := fun kvs => String.intercalate "," (kvs.map (fun kv => kv.1 ++ "=" ++ kv.2))
    GetLimit := fun n => if n = 0 then 20 else if n > 200 then 200 else n
    GetOffset := fun n => n
    GetUserIdsByGroupIds := fun _ => .ok []
    GetGroupsByUserIds := fun _ => .ok [] }

/-- The environment `envQuiet`, except that the store answers an error to the
statement that deletes bindings. -/
def envDeleteFails : Env :=
  { envQuiet with
    fault := fun op =>
      if op = Op.deleteBindings then some (Err.storage "lock wait timeout") else none }

/-- A first user row. -/
def alice : User :=
  { UserId := "u1", Username := "alice", Password := "secret", Email := "alice@x.com",
    PhoneNumber := "100", Description := "", Status := "active", Extra := none,
    CreateTime := 1, UpdateTime := 1, StatusTime := 1 }

/-- A second user row. -/
def bob : User :=
  { UserId := "u2", Username := "bob", Password := "hidden", Email := "bob@x.com",
    PhoneNumber := "200", Description := "second", Status := "active", Extra := none,
    CreateTime := 2, UpdateTime := 2, StatusTime := 2 }

/-- A store with two users, the first of which is in one group. -/
def store2 : Store :=
  { users := [alice, bob], bindings := [{ GroupId := "g1", UserId := "u1" }] }

/-- The store `store2` after a DeleteUsers of its first user during which the
statement that deletes the bindings failed: the user is deleted, its binding is
still there. -/
def store2Stale : Store :=
  { users := [{ alice with Status := StatusDeleted, StatusTime := 100, UpdateTime := 100 }, bob]
    bindings := [{ GroupId := "g1", UserId := "u1" }] }

/-- An environment in which the store answers no error, the members of any
group are "A" and "B", and every user is in the one group "G". -/
def envGroups : Env :=
  { envQuiet with
    GetUserIdsByGroupIds := fun _ => .ok ["A", "B"]
    GetGroupsByUserIds := fun _ => .ok [{ GroupId := "G", GroupName := "staff" }] }

/-- A user row with a given id and creation time. -/
def userRow (id : String) (t : Nat) : User :=
  { UserId := id, Username := id, Password := "", Email := "", PhoneNumber := "",
    Description := "", Status := "active", Extra := none, CreateTime := t, UpdateTime := t,
    StatusTime := t }

/-- A store with the three users "A", "B", "C", the first two in the group "G". -/
def store3 : Store :=
  { users := [userRow "A" 1, userRow "B" 2, userRow "C" 3]
    bindings := [{ GroupId := "G", UserId := "A" }, { GroupId := "G", UserId := "B" }] }

/-- A list request with the given group and user filters and no other filter. -/
def listReq (groupId userId : List String) : ListUsersRequest :=
  { GroupId := groupId, UserId := userId, Username := [], Email := [], PhoneNumber := [],
    Status := [], SortDir := none, Limit := 0, Offset := 0 }

/-- A store of 2^32 user rows with distinct ids and no binding. -/
def bigStore : Store :=
  { users := (List.range 4294967296).map (fun i => userRow (toString i) i), bindings := [] }

/-- A list request without filter that asks for pages of one user. -/
def reqPage : ListUsersRequest :=
  { listReq [] [] with Limit := 1 }

/-- The first page of `reqPage` on `store3`: the newest user, out of three. -/
def respPage : ListUsersResponse :=
  { UserSet := [(userRow "C" 3).ToPB], Total := 3 }

/-- An environment in which the store answers no error and the resolution of the
groups of the user "B" fails. -/
def envGroupsFail : Env :=
  { envQuiet with
    GetGroupsByUserIds := fun ids =>
      if ids = ["B"] then .error (Err.storage "connection lost")
      else .ok [{ GroupId := "G", GroupName := "staff" }] }

/-! # Theorems -/

/-! ## Lemmas on conditions and loops -/

theorem holds_In_userId (ids : List String) (u : User) :
    (Cond.In .ColumnUserId ids).holds u = decide (u.UserId ∈ ids) := by
  simp only [Cond.holds, User.get]
  rw [Bool.eq_iff_iff]
  simp only [List.any_eq_true, decide_eq_true_eq, beq_iff_eq, Value.str.injEq]
  constructor
  · rintro ⟨v, hv, rfl⟩; exact hv
  · intro h; exact ⟨_, h, rfl⟩

theorem holdsBinding_In_userId (ids : List String) (b : UserGroupBinding) :
    (Cond.In .ColumnUserId ids).holdsBinding b = decide (b.UserId ∈ ids) := by
  simp only [Cond.holdsBinding]
  rw [Bool.eq_iff_iff]
  simp only [List.any_eq_true, decide_eq_true_eq, beq_iff_eq]
  constructor
  · rintro ⟨v, hv, rfl⟩; exact hv
  · intro h; exact ⟨_, h, rfl⟩

/-- The row after the update statement of `DeleteUsers`. -/
theorem setAll_deleted (u : User) (now : Nat) :
    u.setAll (setAttr (setAttr (setAttr [] .ColumnStatusTime (.time now)) .ColumnUpdateTime
      (.time now)) .ColumnStatus (.str StatusDeleted))
      = { u with Status := StatusDeleted, StatusTime := now, UpdateTime := now } := by
  simp [setAttr, User.setAll, User.set]

/-- A run of `DeleteUsers` in which the store answers no error: both statements
take effect and are committed. -/
theorem DeleteUsers_clean (env : Env) (req : DeleteUsersRequest) (s : Store)
    (hne : req.UserId ≠ []) (hb : env.fault Op.begin = none)
    (hd : env.fault Op.deleteBindings = none) (hu : env.fault Op.updateUsers = none)
    (hc : env.fault Op.commit = none) :
    DeleteUsers env req (Session.fresh s) =
      (.ok { UserId := req.UserId },
        { store :=
            { users := s.users.map (fun u =>
                if u.UserId ∈ req.UserId then
                  { u with Status := StatusDeleted, StatusTime := env.now, UpdateTime := env.now }
                else u)
              bindings := s.bindings.filter (fun b => !decide (b.UserId ∈ req.UserId)) }
          tx := none
          trace := [Stmt.begin, Stmt.deleteBindings [Cond.In .ColumnUserId req.UserId],
            Stmt.updateUsers [Cond.In .ColumnUserId req.UserId]
              (setAttr (setAttr (setAttr [] .ColumnStatusTime (.time env.now)) .ColumnUpdateTime
                (.time env.now)) .ColumnStatus (.str StatusDeleted)),
            Stmt.commit] }) := by
  have hlen : (req.UserId.length == 0) = false := by
    cases h : req.UserId with
    | nil => exact absurd h hne
    | cons a l => rfl
  simp [DeleteUsers, hlen, DB.Begin, hb, Global, DB.Delete, hd, DB.Table, DB.Where, DB.Updates,
    hu, DB.Commit, hc, DB.beginOwn, DB.endOwn, DB.AddError, Session.fresh, Session.sent,
    Session.write, Session.rows, holds_In_userId, holdsBinding_In_userId, setAll_deleted]

/-! ## DeleteUsers -/

/-- C2. An empty id list: DeleteUsers returns the invalid-argument error and no
response, and the session is the one before the call, so the committed rows
are unchanged, no transaction is open and no statement (begin, delete of
bindings, update of users) has been sent. -/
theorem DeleteUsers_empty_list (env : Env) (req : DeleteUsersRequest) (σ : Session)
    (h : req.UserId = []) :
    DeleteUsers env req σ = (.error (Err.status Code.InvalidArgument "empty user id"), σ) := by
  simp [DeleteUsers, h]

/-- Witness of C2: the empty request on a store with two users and one binding. -/
theorem DeleteUsers_empty_list_witness :
    DeleteUsers envDeleteFails { UserId := [] } (Session.fresh store2)
      = (.error (Err.status Code.InvalidArgument "empty user id"), Session.fresh store2) :=
  DeleteUsers_empty_list envDeleteFails { UserId := [] } (Session.fresh store2) rfl

/-- C1, at the failing input. The store answers an error to the statement that
deletes the bindings and no error to the others: DeleteUsers returns success
for the list ["u1"], and the binding of "u1" is still among the committed rows
(the user row itself is marked deleted). -/
theorem DeleteUsers_success_binding_left :
    (DeleteUsers envDeleteFails { UserId := ["u1"] } (Session.fresh store2)).1
      = .ok { UserId := ["u1"] } ∧
    (DeleteUsers envDeleteFails { UserId := ["u1"] } (Session.fresh store2)).2.store.bindings
      = [{ GroupId := "g1", UserId := "u1" }] ∧
    (DeleteUsers envDeleteFails { UserId := ["u1"] } (Session.fresh store2)).2.store.users
      = [{ alice with Status := StatusDeleted, StatusTime := 100, UpdateTime := 100 }, bob] :=
  ⟨rfl, by decide, by decide⟩

/-- C6, at the failing input. The statement that deletes the bindings fails with
a storage error; DeleteUsers sends no rollback, goes on to the update and the
commit, returns a success response, and the committed rows differ from the
rows before the call. -/
theorem DeleteUsers_delete_error_dropped :
    envDeleteFails.fault Op.deleteBindings = some (Err.storage "lock wait timeout") ∧
    (DeleteUsers envDeleteFails { UserId := ["u1"] } (Session.fresh store2)).1
      = .ok { UserId := ["u1"] } ∧
    (DeleteUsers envDeleteFails { UserId := ["u1"] } (Session.fresh store2)).2.trace
      = [Stmt.begin, Stmt.deleteBindings [Cond.In .ColumnUserId ["u1"]],
          Stmt.updateUsers [Cond.In .ColumnUserId ["u1"]]
            [(.ColumnStatusTime, .time 100), (.ColumnUpdateTime, .time 100),
              (.ColumnStatus, .str "deleted")],
          Stmt.commit] ∧
    (DeleteUsers envDeleteFails { UserId := ["u1"] } (Session.fresh store2)).2.store ≠ store2 :=
  ⟨rfl, rfl, by decide, by decide⟩

/-- When the statement that deletes the bindings is answered without error, a
successful DeleteUsers leaves no binding of a listed user and every listed user
row deleted. -/
theorem DeleteUsers_post_of_delete_ok (env : Env) (req : DeleteUsersRequest) (s : Store)
    (resp : DeleteUsersResponse) (σ : Session)
    (hd : env.fault Op.deleteBindings = none)
    (h : DeleteUsers env req (Session.fresh s) = (.ok resp, σ)) :
    (∀ b ∈ σ.store.bindings, b.UserId ∉ req.UserId) ∧
    (∀ u ∈ σ.store.users, u.UserId ∈ req.UserId → u.Status = StatusDeleted) := by
  by_cases hne : req.UserId = []
  · simp [DeleteUsers, hne] at h
  · cases hb : env.fault Op.begin with
    | some e =>
      simp [DeleteUsers, hne, DB.Begin, hb, Global, DB.Delete, DB.Rollback, DB.beginOwn,
        DB.endOwn, DB.AddError, Session.fresh, Session.sent] at h
    | none =>
      cases hu : env.fault Op.updateUsers with
      | some e =>
        cases hr : env.fault Op.rollback <;>
        simp [DeleteUsers, hne, DB.Begin, hb, Global, DB.Delete, hd, DB.Rollback, DB.Updates,
          hu, hr, DB.Table, DB.Where, DB.beginOwn, DB.endOwn, DB.AddError, Session.fresh,
          Session.sent, Session.write, Session.rows] at h
      | none =>
        cases hc : env.fault Op.commit with
        | some e =>
          simp [DeleteUsers, hne, DB.Begin, hb, Global, DB.Delete, hd, DB.Rollback, DB.Updates,
            hu, DB.Table, DB.Where, DB.Commit, hc, DB.beginOwn, DB.endOwn, DB.AddError,
            Session.fresh, Session.sent, Session.write, Session.rows] at h
        | none =>
          rw [DeleteUsers_clean env req s hne hb hd hu hc] at h
          simp only [Prod.mk.injEq, Except.ok.injEq] at h
          obtain ⟨-, rfl⟩ := h
          constructor
          · intro b hb
            simpa using (List.mem_filter.mp hb).2
          · intro u hu
            obtain ⟨v, -, rfl⟩ := List.mem_map.mp hu
            by_cases hv : v.UserId ∈ req.UserId
            · simp [hv]
            · simp [hv]

/-- In a run in which the store answers no error, DeleteUsers on a non-empty
list whose users are already deleted succeeds again with the same list; after
it every listed user row is still deleted, no binding of a listed user exists,
and the user id and the status of every row are what they were before. -/
theorem DeleteUsers_repeat_clean (env : Env) (req : DeleteUsersRequest) (s : Store)
    (hfault : ∀ op, env.fault op = none) (hne : req.UserId ≠ [])
    (hdel : ∀ u ∈ s.users, u.UserId ∈ req.UserId → u.Status = StatusDeleted) :
    (DeleteUsers env req (Session.fresh s)).1 = .ok { UserId := req.UserId } ∧
    (∀ u ∈ (DeleteUsers env req (Session.fresh s)).2.store.users,
      u.UserId ∈ req.UserId → u.Status = StatusDeleted) ∧
    (∀ b ∈ (DeleteUsers env req (Session.fresh s)).2.store.bindings, b.UserId ∉ req.UserId) ∧
    (DeleteUsers env req (Session.fresh s)).2.store.users.map (fun u => (u.UserId, u.Status))
      = s.users.map (fun u => (u.UserId, u.Status)) := by
  have hrun := DeleteUsers_clean env req s hne (hfault _) (hfault _) (hfault _) (hfault _)
  have hpost := DeleteUsers_post_of_delete_ok env req s _ _ (hfault _) hrun
  rw [hrun]
  refine ⟨rfl, hpost.2, hpost.1, ?_⟩
  simp only [List.map_map]
  apply List.map_congr_left
  intro u hu
  by_cases hv : u.UserId ∈ req.UserId
  · simp [hv, hdel u hu hv]
  · simp [hv]

/-- C8, at the failing input. A first DeleteUsers for ["u1"], during which the
statement that deletes the bindings fails, succeeds and leaves the user deleted
with its binding in place.  On that store, where the listed user is already
deleted, a further DeleteUsers for the same list with the same failure succeeds
again, and the binding of "u1" is still among the committed rows. -/
theorem DeleteUsers_retry_binding_left :
    (DeleteUsers envDeleteFails { UserId := ["u1"] } (Session.fresh store2)).1
      = .ok { UserId := ["u1"] } ∧
    (DeleteUsers envDeleteFails { UserId := ["u1"] } (Session.fresh store2)).2.store
      = store2Stale ∧
    (∀ u ∈ store2Stale.users, u.UserId ∈ ["u1"] → u.Status = StatusDeleted) ∧
    (DeleteUsers envDeleteFails { UserId := ["u1"] } (Session.fresh store2Stale)).1
      = .ok { UserId := ["u1"] } ∧
    (DeleteUsers envDeleteFails { UserId := ["u1"] } (Session.fresh store2Stale)).2.store.bindings
      = [{ GroupId := "g1", UserId := "u1" }] ∧
    (DeleteUsers envDeleteFails { UserId := ["u1"] } (Session.fresh store2Stale)).2.store.users.map
        (fun u => u.Status) = ["deleted", "active"] :=
  ⟨rfl, by decide, by decide, rfl, by decide, by decide⟩

/-- A run of `DeleteUsers` in which the store answers an error to the statement
that deletes the bindings and to no other: the error stays in the handle that
`Delete` returns, the update and the commit go on, and the call succeeds with
every binding still in place. -/
theorem DeleteUsers_delete_fault (env : Env) (req : DeleteUsersRequest) (s : Store) (e : Err)
    (hne : req.UserId ≠ []) (hb : env.fault Op.begin = none)
    (hd : env.fault Op.deleteBindings = some e) (hu : env.fault Op.updateUsers = none)
    (hc : env.fault Op.commit = none) :
    DeleteUsers env req (Session.fresh s) =
      (.ok { UserId := req.UserId },
        { store :=
            { users := s.users.map (fun u =>
                if u.UserId ∈ req.UserId then
                  { u with Status := StatusDeleted, StatusTime := env.now, UpdateTime := env.now }
                else u)
              bindings := s.bindings }
          tx := none
          trace := [Stmt.begin, Stmt.deleteBindings [Cond.In .ColumnUserId req.UserId],
            Stmt.updateUsers [Cond.In .ColumnUserId req.UserId]
              (setAttr (setAttr (setAttr [] .ColumnStatusTime (.time env.now)) .ColumnUpdateTime
                (.time env.now)) .ColumnStatus (.str StatusDeleted)),
            Stmt.commit] }) := by
  have hlen : (req.UserId.length == 0) = false := by
    cases h : req.UserId with
    | nil => exact absurd h hne
    | cons a l => rfl
  simp [DeleteUsers, hlen, DB.Begin, hb, Global, DB.Delete, hd, DB.Table, DB.Where, DB.Updates,
    hu, DB.Commit, hc, DB.beginOwn, DB.endOwn, DB.AddError, Session.fresh, Session.sent,
    Session.write, Session.rows, holds_In_userId, setAll_deleted]

/-! ## ModifyUser -/

/-- The fields of a row after `SET` of the map built by `ModifyUser`: a field
whose request value is empty is kept, the others take the request value, after
`SimplifyString` for the email and the phone number and after `ToString` for
the extra attributes; the user id is kept. -/
theorem setAll_modifyAttributes (env : Env) (req : ModifyUserRequest) (u : User) :
    (u.setAll (modifyAttributes env req)).UserId = u.UserId ∧
    (u.setAll (modifyAttributes env req)).Username
      = (if req.Username = "" then u.Username else req.Username) ∧
    (u.setAll (modifyAttributes env req)).Description
      = (if req.Description = "" then u.Description else req.Description) ∧
    (u.setAll (modifyAttributes env req)).Email
      = (if req.Email = "" then u.Email else SimplifyString req.Email) ∧
    (u.setAll (modifyAttributes env req)).PhoneNumber
      = (if req.PhoneNumber = "" then u.PhoneNumber else SimplifyString req.PhoneNumber) ∧
    (u.setAll (modifyAttributes env req)).Extra
      = (if req.Extra = [] then u.Extra else some (env.ToString req.Extra)) := by
  by_cases h1 : req.Username = "" <;> by_cases h2 : req.Description = "" <;>
    by_cases h3 : req.Email = "" <;> by_cases h4 : req.PhoneNumber = "" <;>
    by_cases h5 : req.Extra = [] <;>
    simp [modifyAttributes, setAttr, User.setAll, User.set, NewString, List.length_pos, h1, h2,
      h3, h4, h5]

/-- The lookup of `GetUser` leaves the rows and the transaction state of the
session as they are. -/
theorem GetUser_session (env : Env) (userId : String) (σ : Session) :
    (GetUser env userId σ).2.store = σ.store ∧ (GetUser env userId σ).2.tx = σ.tx := by
  cases ht : env.fault Op.takeUser with
  | some e => simp [GetUser, DB.Take, Global, DB.Table, ht, Session.sent, DB.AddError]
  | none =>
    cases hf : (σ.tx.getD σ.store).users.find?
        (fun u => userId == "" || u.UserId == userId) with
    | none =>
      simp [GetUser, DB.Take, Global, DB.Table, ht, hf, Session.sent, Session.rows, DB.AddError]
    | some v =>
      simp [GetUser, DB.Take, Global, DB.Table, ht, hf, Session.sent, Session.rows, DB.AddError]

/-- The update of `ModifyUser` outside a transaction: when the handle returned
carries no error, every row of the user table went through the update and the
new rows are committed. -/
theorem Updates_global_ok (env : Env) (attrs : Attributes) (s : Store) (tr : List Stmt)
    (h : ((((Global env).Table .TableUser).Updates env attrs
      { store := s, tx := none, trace := tr }).1.Where (Cond.Eq .ColumnUserId "")).Error = none) :
    (((Global env).Table .TableUser).Updates env attrs
      { store := s, tx := none, trace := tr }).2.store
      = { s with users := s.users.map (fun u => u.setAll attrs) } := by
  cases hb : env.fault Op.begin with
  | some e =>
    cases hbg : env.blockGlobalUpdate <;>
    simp [DB.Updates, DB.beginOwn, DB.endOwn, DB.AddError, Global, DB.Table, DB.Where, hb, hbg,
      Session.sent] at h
  | none =>
    cases hbg : env.blockGlobalUpdate with
    | true =>
      simp [DB.Updates, DB.beginOwn, DB.endOwn, DB.AddError, Global, DB.Table, DB.Where, hb, hbg,
        Session.sent] at h
    | false =>
      cases hu : env.fault Op.updateUsers with
      | some e =>
        simp [DB.Updates, DB.beginOwn, DB.endOwn, DB.AddError, Global, DB.Table, DB.Where, hb,
          hbg, hu, Session.sent] at h
      | none =>
        cases hc : env.fault Op.commit with
        | some e =>
          simp [DB.Updates, DB.beginOwn, DB.endOwn, DB.AddError, Global, DB.Table, DB.Where, hb,
            hbg, hu, hc, Session.sent, Session.write, Session.rows] at h
        | none =>
          simp [DB.Updates, DB.beginOwn, DB.endOwn, DB.AddError, Global, DB.Table, hb,
            hbg, hu, hc, Session.sent, Session.write, Session.rows]

/-- The rows after a successful `ModifyUser`: the response names the user of
the request, the store has taken the update, and every row of the user table
went through it. -/
theorem ModifyUser_ok_rows (env : Env) (req : ModifyUserRequest) (s : Store)
    (resp : ModifyUserResponse) (σ : Session)
    (h : ModifyUser env req (Session.fresh s) = (.ok resp, σ)) :
    resp.UserId = req.UserId ∧
    σ.store.users = s.users.map (fun u => u.setAll (modifyAttributes env req)) ∧
    σ.store.bindings = s.bindings := by
  obtain ⟨hst, htx⟩ := GetUser_session env req.UserId (Session.fresh s)
  cases hg : GetUser env req.UserId (Session.fresh s) with
  | mk r σ1 =>
    rw [hg] at hst htx
    obtain ⟨st1, tx1, tr1⟩ := σ1
    simp only [Session.fresh] at hst htx
    subst hst htx
    cases r with
    | error e => simp [ModifyUser, hg] at h
    | ok v =>
      simp only [ModifyUser, hg] at h
      split at h
      · simp at h
      · rename_i herr
        simp only [Prod.mk.injEq, Except.ok.injEq] at h
        obtain ⟨rfl, rfl⟩ := h
        have hrows := Updates_global_ok env (modifyAttributes env req) st1 tr1
          (by simpa [DB.Where] using herr)
        rw [hrows]
        exact ⟨rfl, rfl, rfl⟩

/-- C3, the claim as stated fails. ModifyUser with the email "ALICE@X.com"
succeeds on the user "u1", and the email of that row after the call is
"alice@x.com", not the value of the request. -/
theorem ModifyUser_email_not_verbatim :
    (ModifyUser envQuiet
      { UserId := "u1", Username := "", Email := "ALICE@X.com", PhoneNumber := "",
        Description := "", Extra := [] } (Session.fresh store2)).1 = .ok { UserId := "u1" } ∧
    ((ModifyUser envQuiet
      { UserId := "u1", Username := "", Email := "ALICE@X.com", PhoneNumber := "",
        Description := "", Extra := [] } (Session.fresh store2)).2.store.users.filter
        (fun u => u.UserId == "u1")).map (fun u => u.Email) = ["alice@x.com"] ∧
    "alice@x.com" ≠ "ALICE@X.com" :=
  ⟨rfl, by decide, by decide⟩

/-- C3, amended. After a successful ModifyUser the user table has as many rows
as before, and the row at the place of each row of the target user (user id
equal to the request's) keeps that user id and has: the username and the
description of the request when non-empty, the email and the phone number of
the request after `SimplifyString` when non-empty, the extra attributes of the
request rendered by `ToString` when non-empty, and the field of the row before
the call whenever the request leaves it empty. -/
theorem ModifyUser_target_fields (env : Env) (req : ModifyUserRequest) (s : Store)
    (resp : ModifyUserResponse) (σ : Session)
    (h : ModifyUser env req (Session.fresh s) = (.ok resp, σ)) :
    resp.UserId = req.UserId ∧
    σ.store.users.length = s.users.length ∧
    ∀ (i : Nat) (b a : User), s.users[i]? = some b → σ.store.users[i]? = some a →
      b.UserId = req.UserId →
      a.UserId = req.UserId ∧
      a.Username = (if req.Username = "" then b.Username else req.Username) ∧
      a.Description = (if req.Description = "" then b.Description else req.Description) ∧
      a.Email = (if req.Email = "" then b.Email else SimplifyString req.Email) ∧
      a.PhoneNumber
        = (if req.PhoneNumber = "" then b.PhoneNumber else SimplifyString req.PhoneNumber) ∧
      a.Extra = (if req.Extra = [] then b.Extra else some (env.ToString req.Extra)) := by
  obtain ⟨hresp, hrows, -⟩ := ModifyUser_ok_rows env req s resp σ h
  refine ⟨hresp, by rw [hrows, List.length_map], ?_⟩
  intro i b a hb ha hid
  rw [hrows, List.getElem?_map, hb] at ha
  simp only [Option.map_some', Option.some.injEq] at ha
  subst ha
  obtain ⟨h0, h1, h2, h3, h4, h5⟩ := setAll_modifyAttributes env req b
  exact ⟨h0.trans hid, h1, h2, h3, h4, h5⟩

/-- Witness of C3 amended: a request that changes the email and the description
of "u1" and leaves the other fields empty. -/
theorem ModifyUser_target_fields_witness :
    ({ UserId := "u1" } : ModifyUserResponse).UserId = "u1" ∧
    [{ alice with Email := "alice@x.com", Description := "bio", UpdateTime := 100 },
      { bob with Email := "alice@x.com", Description := "bio", UpdateTime := 100 }].length
      = store2.users.length ∧
    ∀ (i : Nat) (b a : User), store2.users[i]? = some b →
      [{ alice with Email := "alice@x.com", Description := "bio", UpdateTime := 100 },
        { bob with Email := "alice@x.com", Description := "bio", UpdateTime := 100 }][i]?
        = some a →
      b.UserId = "u1" →
      a.UserId = "u1" ∧
      a.Username = (if "" = "" then b.Username else "") ∧
      a.Description = (if "bio" = "" then b.Description else "bio") ∧
      a.Email = (if "ALICE@X.com" = "" then b.Email else SimplifyString "ALICE@X.com") ∧
      a.PhoneNumber = (if "" = "" then b.PhoneNumber else SimplifyString "") ∧
      a.Extra = (if ([] : List (String × String)) = [] then b.Extra
        else some (envQuiet.ToString [])) :=
  ModifyUser_target_fields envQuiet
    { UserId := "u1", Username := "", Email := "ALICE@X.com", PhoneNumber := "",
      Description := "bio", Extra := [] } store2 { UserId := "u1" }
    { store :=
        { users := [{ alice with Email := "alice@x.com", Description := "bio", UpdateTime := 100 },
            { bob with Email := "alice@x.com", Description := "bio", UpdateTime := 100 }]
          bindings := store2.bindings }
      tx := none
      trace := [Stmt.takeUser (some "u1"), Stmt.begin,
        Stmt.updateUsers [] [(.ColumnDescription, .str "bio"),
          (.ColumnEmail, .str "alice@x.com"), (.ColumnUpdateTime, .time 100)],
        Stmt.commit] }
    rfl

/-- C10, at the failing input. ModifyUser for the user "u1" with the description
"bio" succeeds; the update statement it sends carries no condition, and the row
of the other user "u2" has the new description and update time too. -/
theorem ModifyUser_writes_other_rows :
    (ModifyUser envQuiet
      { UserId := "u1", Username := "", Email := "", PhoneNumber := "",
        Description := "bio", Extra := [] } (Session.fresh store2)).1 = .ok { UserId := "u1" } ∧
    (ModifyUser envQuiet
      { UserId := "u1", Username := "", Email := "", PhoneNumber := "",
        Description := "bio", Extra := [] } (Session.fresh store2)).2.trace
      = [Stmt.takeUser (some "u1"), Stmt.begin,
          Stmt.updateUsers [] [(.ColumnDescription, .str "bio"), (.ColumnUpdateTime, .time 100)],
          Stmt.commit] ∧
    (ModifyUser envQuiet
      { UserId := "u1", Username := "", Email := "", PhoneNumber := "",
        Description := "bio", Extra := [] } (Session.fresh store2)).2.store.users
      = [{ alice with Description := "bio", UpdateTime := 100 },
          { bob with Description := "bio", UpdateTime := 100 }] ∧
    bob.UserId ≠ "u1" ∧ { bob with Description := "bio", UpdateTime := 100 } ≠ bob :=
  ⟨rfl, by decide, by decide, by decide, by decide⟩

/-- A request with the empty user id: the lookup carries no key, takes the
first row of the table, and ModifyUser goes on and succeeds although no user
has that id. -/
theorem ModifyUser_zero_key :
    (ModifyUser envQuiet
      { UserId := "", Username := "", Email := "", PhoneNumber := "",
        Description := "bio", Extra := [] } (Session.fresh store2)).1 = .ok { UserId := "" } ∧
    (ModifyUser envQuiet
      { UserId := "", Username := "", Email := "", PhoneNumber := "",
        Description := "bio", Extra := [] } (Session.fresh store2)).2.trace
      = [Stmt.takeUser none, Stmt.begin,
          Stmt.updateUsers [] [(.ColumnDescription, .str "bio"), (.ColumnUpdateTime, .time 100)],
          Stmt.commit] :=
  ⟨rfl, by decide⟩

/-! ## ListUsers -/

theorem Contains_eq (l : List String) (x : String) : Contains l x = decide (x ∈ l) := by
  simp only [Contains]
  rw [Bool.eq_iff_iff]
  simp only [List.any_eq_true, beq_iff_eq, decide_eq_true_eq]
  constructor
  · rintro ⟨y, hy, rfl⟩; exact hy
  · intro h; exact ⟨_, h, rfl⟩

theorem inUserIds_eq (m l acc : List String) :
    inUserIds m l acc = acc ++ l.filter (fun x => decide (x ∈ m)) := by
  induction l generalizing acc with
  | nil => simp [inUserIds]
  | cons x rest ih =>
    by_cases hx : x ∈ m
    · simp [inUserIds, Contains_eq, hx, ih]
    · simp [inUserIds, Contains_eq, hx, ih]

theorem toPbUsers_eq (l : List User) (acc : List PbUser) :
    toPbUsers l acc = acc ++ l.map User.ToPB := by
  induction l generalizing acc with
  | nil => simp [toPbUsers]
  | cons x rest ih => simp [toPbUsers, ih]

/-- The handle `BuildFilterConditions` returns: the receiver with the conditions
of the request added. -/
theorem BuildFilterConditions_eq (db : DB) (req : ListUsersRequest) (t : TableName) :
    db.BuildFilterConditions req t = { db with conds := db.conds ++ filterConds req } := by
  have key : ∀ (d : DB) (col : Column) (vals : List String),
      d.filterIn col vals = { d with conds := d.conds ++ inCond col vals } := by
    intro d col vals
    by_cases h : vals.length > 0
    · simp [DB.filterIn, inCond, h, DB.Where]
    · simp [DB.filterIn, inCond, h]
  simp only [DB.BuildFilterConditions, key, filterConds, List.append_assoc]

/-- The two queries of `ListUsers`, with the handles spelled out. -/
theorem listQueries_eq (env : Env) (req : ListUsersRequest) (limit offset : Nat) (σ : Session) :
    listQueries env req limit offset σ =
      match env.fault Op.findUsers with
      | some err =>
        (.error err, σ.sent (Stmt.findUsers (filterConds req)
          (some (.ColumnCreateTime, req.SortDir.getD Dir.desc)) (some offset) (some limit)))
      | none =>
        match env.fault Op.countUsers with
        | some err =>
          (.error err, (σ.sent (Stmt.findUsers (filterConds req)
            (some (.ColumnCreateTime, req.SortDir.getD Dir.desc)) (some offset)
            (some limit))).sent (Stmt.countUsers (filterConds req)))
        | none =>
          (.ok
            { UserSet := (((orderBy (some (.ColumnCreateTime, req.SortDir.getD Dir.desc))
                (σ.rows.users.filter (fun u => (filterConds req).all (fun k => k.holds u)))).drop
                  offset).take limit).map User.ToPB
              Total := (σ.rows.users.filter
                (fun u => (filterConds req).all (fun k => k.holds u))).length % 2 ^ 32 },
            (σ.sent (Stmt.findUsers (filterConds req)
              (some (.ColumnCreateTime, req.SortDir.getD Dir.desc)) (some offset)
              (some limit))).sent (Stmt.countUsers (filterConds req))) := by
  cases hf : env.fault Op.findUsers with
  | some e =>
    simp [listQueries, BuildFilterConditions_eq, GetChain, Global, DB.Table, DB.AddQueryOrderDir,
      DB.Offset, DB.Limit, DB.Find, DB.AddError, hf]
  | none =>
    cases hc : env.fault Op.countUsers with
    | some e =>
      simp [listQueries, BuildFilterConditions_eq, GetChain, Global, DB.Table,
        DB.AddQueryOrderDir, DB.Offset, DB.Limit, DB.Find, DB.AddError, hf, DB.Count, hc]
    | none =>
      simp [listQueries, BuildFilterConditions_eq, GetChain, Global, DB.Table,
        DB.AddQueryOrderDir, DB.Offset, DB.Limit, DB.Find, DB.AddError, hf, DB.Count, hc,
        toPbUsers_eq,
        applyLimit, Session.sent, Session.rows]

/-- The control flow of `ListUsers` over the normalized request. -/
theorem ListUsers_eq (env : Env) (req : ListUsersRequest) (σ : Session) :
    ListUsers env req σ =
      if SimplifyStringList req.GroupId = [] then
        listQueries env (normalize req) (env.GetLimit req.Limit) (env.GetOffset req.Offset) σ
      else
        match env.GetUserIdsByGroupIds (SimplifyStringList req.GroupId) with
        | .error err => (.error err, σ)
        | .ok m =>
          if specScopedUserIds (SimplifyStringList req.UserId) m = [] then
            (.ok { UserSet := [], Total := 0 }, σ)
          else
            listQueries env
              { normalize req with
                UserId := specScopedUserIds (SimplifyStringList req.UserId) m }
              (env.GetLimit req.Limit) (env.GetOffset req.Offset) σ := by
  by_cases hg : SimplifyStringList req.GroupId = []
  · simp [ListUsers, normalize, hg]
  · have hpos : 0 < (SimplifyStringList req.GroupId).length := List.length_pos.mpr hg
    cases hm : env.GetUserIdsByGroupIds (SimplifyStringList req.GroupId) with
    | error e => simp [ListUsers, normalize, hg, hpos, hm]
    | ok m =>
      by_cases hu : SimplifyStringList req.UserId = []
      · by_cases hmm : m = []
        · simp [ListUsers, normalize, hg, hpos, hm, hu, specScopedUserIds, hmm]
        · simp [ListUsers, normalize, hg, hpos, hm, hu, specScopedUserIds, hmm]
      · by_cases hf : (SimplifyStringList req.UserId).filter (fun x => decide (x ∈ m)) = []
        · simp [ListUsers, normalize, hg, hpos, hm, hu, specScopedUserIds, inUserIds_eq, hf]
        · simp [ListUsers, normalize, hg, hpos, hm, hu, specScopedUserIds, inUserIds_eq, hf]

theorem holds_In_str (col : Column) (vals : List String) (u : User) (v : String)
    (h : u.get col = Value.str v) : (Cond.In col vals).holds u = decide (v ∈ vals) := by
  simp only [Cond.holds, h]
  rw [Bool.eq_iff_iff]
  simp only [List.any_eq_true, decide_eq_true_eq, beq_iff_eq, Value.str.injEq]
  constructor
  · rintro ⟨w, hw, rfl⟩; exact hw
  · intro hv; exact ⟨_, hv, rfl⟩

theorem all_inCond (col : Column) (vals : List String) (u : User) (v : String)
    (h : u.get col = Value.str v) :
    (inCond col vals).all (fun k => k.holds u) = specPasses vals v := by
  cases vals with
  | nil => simp [inCond, specPasses]
  | cons a l => simp [inCond, specPasses, holds_In_str col (a :: l) u v h]

/-- The conditions built for a request hold of a row exactly when the row passes
the five column filters of the request. -/
theorem all_filterConds (req : ListUsersRequest) (u : User) :
    (filterConds req).all (fun k => k.holds u) =
      (specPasses req.UserId u.UserId && specPasses req.Username u.Username &&
        specPasses req.Email u.Email && specPasses req.PhoneNumber u.PhoneNumber &&
        specPasses req.Status u.Status) := by
  simp only [filterConds, List.all_append,
    all_inCond .ColumnUserId req.UserId u u.UserId rfl,
    all_inCond .ColumnUsername req.Username u u.Username rfl,
    all_inCond .ColumnEmail req.Email u u.Email rfl,
    all_inCond .ColumnPhoneNumber req.PhoneNumber u u.PhoneNumber rfl,
    all_inCond .ColumnStatus req.Status u u.Status rfl]

theorem mem_specScopedUserIds (requested members : List String) (x : String) :
    decide (x ∈ specScopedUserIds requested members)
      = (specPasses requested x && decide (x ∈ members)) := by
  by_cases h : requested = []
  · simp [specScopedUserIds, specPasses, h]
  · have hne : requested.isEmpty = false := by
      cases requested with
      | nil => exact absurd rfl h
      | cons a l => rfl
    rw [Bool.eq_iff_iff]
    simp [specScopedUserIds, specPasses, h, hne, List.mem_filter]

theorem specPasses_of_ne_nil (filter : List String) (x : String) (h : filter ≠ []) :
    specPasses filter x = decide (x ∈ filter) := by
  cases filter with
  | nil => exact absurd rfl h
  | cons a l => simp [specPasses]

/-- The conditions of the reference list are on other columns than the user
id. -/
theorem specOtherConds_col (req : ListUsersRequest) :
    ∀ c ∈ specOtherConds req, c.col ≠ Column.ColumnUserId := by
  have key : ∀ (col : Column) (vals : List String), col ≠ Column.ColumnUserId →
      ∀ c ∈ inCond col vals, c.col ≠ Column.ColumnUserId := by
    intro col vals hcol c hc
    by_cases h : vals.length > 0
    · simp only [inCond, h, if_true, List.mem_singleton] at hc
      subst hc
      exact hcol
    · simp [inCond, h] at hc
  intro c hc
  simp only [specOtherConds, List.mem_append] at hc
  rcases hc with ((hc | hc) | hc) | hc
  · exact key _ _ (by decide) c hc
  · exact key _ _ (by decide) c hc
  · exact key _ _ (by decide) c hc
  · exact key _ _ (by decide) c hc

/-- C4. A request whose normalized group filter is non-empty and resolves to the
members `m`. Let `f` be the resolved member list when the normalized user
filter is empty, and otherwise the requested ids that are among the members, in
the order of the request (an id is in `f` exactly when it is requested and a
member). The statements ListUsers sends are exactly: none when `f` is empty;
otherwise the page query and, when the page query is answered, the count query,
both with the condition `user_id IN f` followed by the conditions of the
request on the other columns, none of which is on the user id. -/
theorem ListUsers_group_scoped_filter (env : Env) (req : ListUsersRequest) (s : Store)
    (m : List String) (hg : SimplifyStringList req.GroupId ≠ [])
    (hm : env.GetUserIdsByGroupIds (SimplifyStringList req.GroupId) = .ok m) :
    (SimplifyStringList req.UserId = [] →
      specScopedUserIds (SimplifyStringList req.UserId) m = m) ∧
    (SimplifyStringList req.UserId ≠ [] →
      (specScopedUserIds (SimplifyStringList req.UserId) m).Sublist
        (SimplifyStringList req.UserId) ∧
      ∀ x, x ∈ specScopedUserIds (SimplifyStringList req.UserId) m ↔
        x ∈ SimplifyStringList req.UserId ∧ x ∈ m) ∧
    (∀ c ∈ specOtherConds req, c.col ≠ Column.ColumnUserId) ∧
    (ListUsers env req (Session.fresh s)).2.trace =
      if specScopedUserIds (SimplifyStringList req.UserId) m = [] then []
      else
        Stmt.findUsers
          (Cond.In .ColumnUserId (specScopedUserIds (SimplifyStringList req.UserId) m)
            :: specOtherConds req)
          (some (.ColumnCreateTime, req.SortDir.getD Dir.desc))
          (some (env.GetOffset req.Offset)) (some (env.GetLimit req.Limit)) ::
        (if env.fault Op.findUsers = none then
          [Stmt.countUsers
            (Cond.In .ColumnUserId (specScopedUserIds (SimplifyStringList req.UserId) m)
              :: specOtherConds req)]
        else []) := by
  refine ⟨fun h => by simp [specScopedUserIds, h], fun h => ?_, specOtherConds_col req, ?_⟩
  · constructor
    · simp only [specScopedUserIds, h, if_false]
      exact List.filter_sublist _
    · intro x
      simp [specScopedUserIds, h, List.mem_filter]
  · rw [ListUsers_eq, if_neg hg, hm]
    by_cases hf : specScopedUserIds (SimplifyStringList req.UserId) m = []
    · simp [hf, Session.fresh]
    · have hpos : 0 < (specScopedUserIds (SimplifyStringList req.UserId) m).length :=
        List.length_pos.mpr hf
      simp only [hf, if_false, listQueries_eq]
      cases hfind : env.fault Op.findUsers with
      | some e =>
        simp [Session.sent, Session.fresh, filterConds, specOtherConds, inCond, hpos, normalize]
      | none =>
        cases hcount : env.fault Op.countUsers with
        | some e =>
          simp [Session.sent, Session.fresh, filterConds, specOtherConds, inCond, hpos, normalize]
        | none =>
          simp [Session.sent, Session.fresh, filterConds, specOtherConds, inCond, hpos, normalize]

/-- Witness of C4: the request userId = [A, B, C], groupId = [G] when the members
of G are A and B: the page query and the count query carry the one condition
user_id IN [A, B]. -/
theorem ListUsers_group_scoped_filter_witness :
    specScopedUserIds (SimplifyStringList ["A", "B", "C"]) ["A", "B"] = ["A", "B"] ∧
    specOtherConds (listReq ["G"] ["A", "B", "C"]) = [] ∧
    (ListUsers envGroups (listReq ["G"] ["A", "B", "C"]) (Session.fresh store3)).2.trace =
      (if specScopedUserIds (SimplifyStringList (listReq ["G"] ["A", "B", "C"]).UserId)
          ["A", "B"] = [] then []
      else
        Stmt.findUsers
          (Cond.In .ColumnUserId
            (specScopedUserIds (SimplifyStringList (listReq ["G"] ["A", "B", "C"]).UserId)
              ["A", "B"]) :: specOtherConds (listReq ["G"] ["A", "B", "C"]))
          (some (.ColumnCreateTime, (listReq ["G"] ["A", "B", "C"]).SortDir.getD Dir.desc))
          (some (envGroups.GetOffset (listReq ["G"] ["A", "B", "C"]).Offset))
          (some (envGroups.GetLimit (listReq ["G"] ["A", "B", "C"]).Limit)) ::
        (if envGroups.fault Op.findUsers = none then
          [Stmt.countUsers
            (Cond.In .ColumnUserId
              (specScopedUserIds (SimplifyStringList (listReq ["G"] ["A", "B", "C"]).UserId)
                ["A", "B"]) :: specOtherConds (listReq ["G"] ["A", "B", "C"]))]
        else [])) ∧
    (ListUsers envGroups (listReq ["G"] ["A", "B", "C"]) (Session.fresh store3)).2.trace =
      [Stmt.findUsers [Cond.In .ColumnUserId ["A", "B"]] (some (.ColumnCreateTime, Dir.desc))
          (some 0) (some 20),
        Stmt.countUsers [Cond.In .ColumnUserId ["A", "B"]]] :=
  ⟨by decide, by decide,
    (ListUsers_group_scoped_filter envGroups (listReq ["G"] ["A", "B", "C"]) store3 ["A", "B"]
      (by decide) rfl).2.2.2,
    by decide⟩

/-- C5. A request whose normalized group filter is non-empty and resolves, and
whose final user-id filter (the members, or the requested ids among them) is
empty: ListUsers returns success with an empty user set and total 0, and the
session is the one before the call: no page query and no count query is sent. -/
theorem ListUsers_empty_scope (env : Env) (req : ListUsersRequest) (σ : Session)
    (m : List String) (hg : SimplifyStringList req.GroupId ≠ [])
    (hm : env.GetUserIdsByGroupIds (SimplifyStringList req.GroupId) = .ok m)
    (hf : specScopedUserIds (SimplifyStringList req.UserId) m = []) :
    ListUsers env req σ = (.ok { UserSet := [], Total := 0 }, σ) := by
  rw [ListUsers_eq, if_neg hg, hm]
  simp [hf]

/-- Witness of C5: the request userId = [C], groupId = [G] when the members of G
are A and B, on a store that holds the three users. -/
theorem ListUsers_empty_scope_witness :
    ListUsers envGroups (listReq ["G"] ["C"]) (Session.fresh store3)
      = (.ok { UserSet := [], Total := 0 }, Session.fresh store3) :=
  ListUsers_empty_scope envGroups (listReq ["G"] ["C"]) (Session.fresh store3) ["A", "B"]
    (by decide) rfl (by decide)

/-- The row filter of the queries equals the spec's predicate, when the group
filter is empty. -/
theorem all_filterConds_no_group (env : Env) (req : ListUsersRequest) (u : User)
    (hg : SimplifyStringList req.GroupId = []) :
    (filterConds (normalize req)).all (fun k => k.holds u) = specMatches env req u := by
  simp [all_filterConds, specMatches, normalize, hg]

/-- The row filter of the queries equals the spec's predicate, when the group
filter resolves to `m` and the scoped user filter is non-empty. -/
theorem all_filterConds_group (env : Env) (req : ListUsersRequest) (u : User) (m : List String)
    (hg : SimplifyStringList req.GroupId ≠ [])
    (hm : env.GetUserIdsByGroupIds (SimplifyStringList req.GroupId) = .ok m)
    (hf : specScopedUserIds (SimplifyStringList req.UserId) m ≠ []) :
    (filterConds { normalize req with
        UserId := specScopedUserIds (SimplifyStringList req.UserId) m }).all
      (fun k => k.holds u) = specMatches env req u := by
  have hge : (SimplifyStringList req.GroupId).isEmpty = false := by
    cases h : SimplifyStringList req.GroupId with
    | nil => exact absurd h hg
    | cons a l => rfl
  simp only [all_filterConds, specMatches, normalize, hm, hge, Bool.false_or,
    specPasses_of_ne_nil _ u.UserId hf, mem_specScopedUserIds]
  cases specPasses (SimplifyStringList req.UserId) u.UserId <;>
    cases decide (u.UserId ∈ m) <;> simp

/-- No row matches the spec's predicate when the scoped user filter is empty. -/
theorem specMatches_empty_scope (env : Env) (req : ListUsersRequest) (u : User) (m : List String)
    (hg : SimplifyStringList req.GroupId ≠ [])
    (hm : env.GetUserIdsByGroupIds (SimplifyStringList req.GroupId) = .ok m)
    (hf : specScopedUserIds (SimplifyStringList req.UserId) m = []) :
    specMatches env req u = false := by
  have hge : (SimplifyStringList req.GroupId).isEmpty = false := by
    cases h : SimplifyStringList req.GroupId with
    | nil => exact absurd h hg
    | cons a l => rfl
  have hx := mem_specScopedUserIds (SimplifyStringList req.UserId) m u.UserId
  rw [hf] at hx
  simp only [List.not_mem_nil, decide_False] at hx
  simp only [specMatches, hm, hge, Bool.false_or]
  cases h1 : specPasses (SimplifyStringList req.UserId) u.UserId with
  | false => simp
  | true =>
    rw [h1, Bool.true_and] at hx
    rw [← hx]
    simp

/-- A successful page and count: the total and the size of the page. -/
theorem listQueries_ok (env : Env) (req : ListUsersRequest) (limit offset : Nat) (s : Store)
    (resp : ListUsersResponse) (σ : Session)
    (h : listQueries env req limit offset (Session.fresh s) = (.ok resp, σ)) :
    resp.Total
      = (s.users.filter (fun u => (filterConds req).all (fun k => k.holds u))).length % 2 ^ 32 ∧
    resp.UserSet.length ≤ limit := by
  rw [listQueries_eq] at h
  cases hfind : env.fault Op.findUsers with
  | some e => simp [hfind] at h
  | none =>
    cases hcount : env.fault Op.countUsers with
    | some e => simp [hfind, hcount] at h
    | none =>
      simp only [hfind, hcount, Prod.mk.injEq, Except.ok.injEq] at h
      obtain ⟨rfl, -⟩ := h
      refine ⟨rfl, ?_⟩
      simp only [List.length_map]
      exact List.length_take_le _ _

/-- The total and the size of the page of a successful `ListUsers`. -/
theorem ListUsers_ok (env : Env) (req : ListUsersRequest) (s : Store)
    (resp : ListUsersResponse) (σ : Session)
    (h : ListUsers env req (Session.fresh s) = (.ok resp, σ)) :
    resp.Total = (s.users.filter (fun u => specMatches env req u)).length % 2 ^ 32 ∧
    resp.UserSet.length ≤ env.GetLimit req.Limit := by
  rw [ListUsers_eq] at h
  by_cases hg : SimplifyStringList req.GroupId = []
  · rw [if_pos hg] at h
    obtain ⟨ht, hl⟩ := listQueries_ok env _ _ _ s resp σ h
    refine ⟨?_, hl⟩
    rw [ht]
    congr 2
    apply List.filter_congr
    intro u _
    exact all_filterConds_no_group env req u hg
  · rw [if_neg hg] at h
    cases hm : env.GetUserIdsByGroupIds (SimplifyStringList req.GroupId) with
    | error e => simp [hm] at h
    | ok m =>
      simp only [hm] at h
      by_cases hf : specScopedUserIds (SimplifyStringList req.UserId) m = []
      · rw [if_pos hf] at h
        simp only [Prod.mk.injEq, Except.ok.injEq] at h
        obtain ⟨rfl, -⟩ := h
        refine ⟨?_, Nat.zero_le _⟩
        have : s.users.filter (fun u => specMatches env req u) = [] := by
          apply List.filter_eq_nil_iff.mpr
          intro u _
          simp [specMatches_empty_scope env req u m hg hm hf]
        simp [this]
      · rw [if_neg hf] at h
        obtain ⟨ht, hl⟩ := listQueries_ok env _ _ _ s resp σ h
        refine ⟨?_, hl⟩
        rw [ht]
        congr 2
        apply List.filter_congr
        intro u _
        exact all_filterConds_group env req u m hg hm hf

/-- C7, the claim as stated fails. On a store of 2^32 user rows with distinct
ids, ListUsers without filter succeeds and returns the total 0, while all 2^32
rows match the (empty) filter predicates of the request. -/
theorem ListUsers_total_wraps :
    ∃ resp σ, ListUsers envQuiet (listReq [] []) (Session.fresh bigStore) = (.ok resp, σ) ∧
      resp.Total = 0 ∧
      (bigStore.users.filter (fun u => specMatches envQuiet (listReq [] []) u)).length
        = 4294967296 := by
  have hall : ∀ u : User, specMatches envQuiet (listReq [] []) u = true := fun u => by
    simp [specMatches, specPasses, listReq, SimplifyStringList, simplifyLoop]
  have hlen : (bigStore.users.filter (fun u => specMatches envQuiet (listReq [] []) u)).length
      = 4294967296 := by
    rw [List.filter_eq_self.mpr (fun u _ => hall u)]
    simp only [bigStore, List.length_map, List.length_range]
  cases hrun : ListUsers envQuiet (listReq [] []) (Session.fresh bigStore) with
  | mk r σ =>
    have hfind : envQuiet.fault Op.findUsers = none := rfl
    have hcount : envQuiet.fault Op.countUsers = none := rfl
    have hg : SimplifyStringList (listReq [] []).GroupId = [] := rfl
    cases r with
    | error e =>
      rw [ListUsers_eq, if_pos hg, listQueries_eq] at hrun
      simp only [hfind, hcount] at hrun
      cases hrun
    | ok resp =>
      obtain ⟨ht, -⟩ := ListUsers_ok envQuiet (listReq [] []) bigStore resp σ hrun
      refine ⟨resp, σ, rfl, ?_, hlen⟩
      rw [ht, hlen]
      norm_num

/-- C7, amended. A successful ListUsers: the total is the number of user rows
that match the filter predicates of the request, reduced modulo 2^32 (the total
of the response is a 32-bit unsigned number), hence that number itself when
fewer than 2^32 rows match; the page has at most as many users as the effective
limit; and a successful ListUsers for the same request with any other limit and
offset returns the same total. -/
theorem ListUsers_total_and_page (env : Env) (req : ListUsersRequest) (s : Store)
    (resp : ListUsersResponse) (σ : Session)
    (h : ListUsers env req (Session.fresh s) = (.ok resp, σ)) :
    resp.Total = (s.users.filter (fun u => specMatches env req u)).length % 2 ^ 32 ∧
    ((s.users.filter (fun u => specMatches env req u)).length < 2 ^ 32 →
      resp.Total = (s.users.filter (fun u => specMatches env req u)).length) ∧
    resp.UserSet.length ≤ env.GetLimit req.Limit ∧
    ∀ (limit offset : Nat) (resp2 : ListUsersResponse) (σ2 : Session),
      ListUsers env { req with Limit := limit, Offset := offset } (Session.fresh s)
        = (.ok resp2, σ2) →
      resp2.Total = resp.Total := by
  obtain ⟨ht, hl⟩ := ListUsers_ok env req s resp σ h
  refine ⟨ht, fun hlt => by rw [ht, Nat.mod_eq_of_lt hlt], hl, ?_⟩
  intro limit offset resp2 σ2 h2
  obtain ⟨ht2, -⟩ := ListUsers_ok env _ s resp2 σ2 h2
  rw [ht, ht2]
  rfl

/-- Witness of C7 amended: pages of one user over a store of three users. -/
theorem ListUsers_total_and_page_witness :
    respPage.Total
      = (store3.users.filter (fun u => specMatches envQuiet reqPage u)).length % 2 ^ 32 ∧
    ((store3.users.filter (fun u => specMatches envQuiet reqPage u)).length < 2 ^ 32 →
      respPage.Total = (store3.users.filter (fun u => specMatches envQuiet reqPage u)).length) ∧
    respPage.UserSet.length ≤ envQuiet.GetLimit reqPage.Limit ∧
    ∀ (limit offset : Nat) (resp2 : ListUsersResponse) (σ2 : Session),
      ListUsers envQuiet { reqPage with Limit := limit, Offset := offset } (Session.fresh store3)
        = (.ok resp2, σ2) →
      resp2.Total = respPage.Total :=
  ListUsers_total_and_page envQuiet reqPage store3 respPage
    (ListUsers envQuiet reqPage (Session.fresh store3)).2 rfl

/-! ## ListUsersWithGroup -/

theorem toPbGroups_eq (l : List Group) (acc : List PbGroup) :
    toPbGroups l acc = acc ++ l.map Group.ToPB := by
  induction l generalizing acc with
  | nil => simp [toPbGroups]
  | cons x rest ih => simp [toPbGroups, ih]

/-- A successful run of the loop: one entry per user, in order, each with the
groups resolved for that user alone. -/
theorem withGroups_ok (env : Env) (l : List PbUser) (acc r : List PbUserWithGroup)
    (h : withGroups env l acc = .ok r) :
    ∃ t, r = acc ++ t ∧ t.length = l.length ∧
      ∀ (i : Nat) (u : PbUser), l[i]? = some u →
        ∃ gs, env.GetGroupsByUserIds [u.UserId] = .ok gs ∧
          t[i]? = some { User := u, GroupSet := gs.map Group.ToPB } := by
  induction l generalizing acc with
  | nil =>
    simp only [withGroups, Except.ok.injEq] at h
    exact ⟨[], by simp [h], rfl, by simp⟩
  | cons x rest ih =>
    cases hx : env.GetGroupsByUserIds [x.UserId] with
    | error e => simp [withGroups, hx] at h
    | ok gs =>
      simp only [withGroups, hx, toPbGroups_eq, List.nil_append] at h
      obtain ⟨t, ht, hlen, hall⟩ := ih _ h
      refine ⟨{ User := x, GroupSet := gs.map Group.ToPB } :: t, by simp [ht], by simp [hlen], ?_⟩
      intro i u hi
      cases i with
      | zero =>
        simp only [List.getElem?_cons_zero, Option.some.injEq] at hi
        subst hi
        exact ⟨gs, hx, by simp⟩
      | succ j =>
        simp only [List.getElem?_cons_succ] at hi
        obtain ⟨gs2, h1, h2⟩ := hall j u hi
        exact ⟨gs2, h1, by simpa using h2⟩

/-- A failed run of the loop: the error is the one of the first user whose
group resolution fails. -/
theorem withGroups_error (env : Env) (l : List PbUser) (acc : List PbUserWithGroup) (e : Err)
    (h : withGroups env l acc = .error e) :
    ∃ pre u post, l = pre ++ u :: post ∧
      (∀ v ∈ pre, ∃ gs, env.GetGroupsByUserIds [v.UserId] = .ok gs) ∧
      env.GetGroupsByUserIds [u.UserId] = .error e := by
  induction l generalizing acc with
  | nil => simp [withGroups] at h
  | cons x rest ih =>
    cases hx : env.GetGroupsByUserIds [x.UserId] with
    | error e2 =>
      simp only [withGroups, hx, Except.error.injEq] at h
      subst h
      exact ⟨[], x, rest, rfl, by simp, hx⟩
    | ok gs =>
      simp only [withGroups, hx] at h
      obtain ⟨pre, u, post, hl, hpre, hu⟩ := ih _ h
      refine ⟨x :: pre, u, post, by simp [hl], ?_, hu⟩
      intro v hv
      rcases List.mem_cons.mp hv with rfl | hv
      · exact ⟨gs, hx⟩
      · exact hpre v hv

/-- C9. (1) When ListUsersWithGroup succeeds, ListUsers succeeds on the same
request with the same total and a page of the same length, and the i-th entry
of the result is the i-th user of that page with the groups that one group
resolution on the list of that single user id returns. (2) When ListUsers
fails, ListUsersWithGroup returns that error. (3) When ListUsers succeeds and
the group resolution of some user of the page fails, ListUsersWithGroup returns
an error and no response: the error of the first user of the page whose
resolution fails. -/
theorem ListUsersWithGroup_page (env : Env) (req : ListUsersRequest) (σ : Session) :
    (∀ (resp : ListUsersWithGroupResponse) (σ1 : Session),
      ListUsersWithGroup env req σ = (.ok resp, σ1) →
      ∃ page : ListUsersResponse, ListUsers env req σ = (.ok page, σ1) ∧
        resp.Total = page.Total ∧ resp.UserSet.length = page.UserSet.length ∧
        ∀ (i : Nat) (u : PbUser), page.UserSet[i]? = some u →
          ∃ gs, env.GetGroupsByUserIds [u.UserId] = .ok gs ∧
            resp.UserSet[i]? = some { User := u, GroupSet := gs.map Group.ToPB }) ∧
    (∀ (e : Err) (σ1 : Session), ListUsers env req σ = (.error e, σ1) →
      ListUsersWithGroup env req σ = (.error e, σ1)) ∧
    (∀ (page : ListUsersResponse) (σ1 : Session) (u : PbUser) (e : Err),
      ListUsers env req σ = (.ok page, σ1) → u ∈ page.UserSet →
      env.GetGroupsByUserIds [u.UserId] = .error e →
      ∃ e1, ListUsersWithGroup env req σ = (.error e1, σ1) ∧
        ∃ pre v post, page.UserSet = pre ++ v :: post ∧
          (∀ w ∈ pre, ∃ gs, env.GetGroupsByUserIds [w.UserId] = .ok gs) ∧
          env.GetGroupsByUserIds [v.UserId] = .error e1) := by
  refine ⟨?_, ?_, ?_⟩
  · intro resp σ1 h
    cases hl : ListUsers env req σ with
    | mk r σ2 =>
      cases r with
      | error e => simp [ListUsersWithGroup, hl] at h
      | ok page =>
        cases hw : withGroups env page.UserSet [] with
        | error e => simp [ListUsersWithGroup, hl, hw] at h
        | ok t =>
          simp only [ListUsersWithGroup, hl, hw, Prod.mk.injEq, Except.ok.injEq] at h
          obtain ⟨rfl, rfl⟩ := h
          obtain ⟨t2, ht, hlen, hall⟩ := withGroups_ok env _ _ _ hw
          simp only [List.nil_append] at ht
          subst ht
          exact ⟨page, rfl, rfl, hlen, hall⟩
  · intro e σ1 hl
    simp [ListUsersWithGroup, hl]
  · intro page σ1 u e hl hu hfail
    cases hw : withGroups env page.UserSet [] with
    | error e1 =>
      exact ⟨e1, by simp [ListUsersWithGroup, hl, hw], withGroups_error env _ _ _ hw⟩
    | ok t =>
      exfalso
      obtain ⟨t2, -, -, hall⟩ := withGroups_ok env _ _ _ hw
      obtain ⟨i, hi⟩ := List.getElem?_of_mem hu
      obtain ⟨gs, hgs, -⟩ := hall i u hi
      rw [hfail] at hgs
      cases hgs

/-- Witness of C9: the three users of the store, each with its group; and the
same listing when the group resolution of the user "B" fails. -/
theorem ListUsersWithGroup_page_ok_witness :
    (ListUsersWithGroup envGroups (listReq [] []) (Session.fresh store3)).1
      = .ok
        { UserSet :=
            [{ User := (userRow "C" 3).ToPB, GroupSet := [{ GroupId := "G", GroupName := "staff" }] },
              { User := (userRow "B" 2).ToPB, GroupSet := [{ GroupId := "G", GroupName := "staff" }] },
              { User := (userRow "A" 1).ToPB, GroupSet := [{ GroupId := "G", GroupName := "staff" }] }]
          Total := 3 } ∧
    (∃ page : ListUsersResponse,
      ListUsers envGroups (listReq [] []) (Session.fresh store3)
        = (.ok page, (ListUsersWithGroup envGroups (listReq [] []) (Session.fresh store3)).2) ∧
      (3 : Nat) = page.Total ∧ 3 = page.UserSet.length) ∧
    (ListUsersWithGroup envGroupsFail (listReq [] []) (Session.fresh store3)).1
      = .error (Err.storage "connection lost") :=
  ⟨rfl, by
    obtain ⟨page, h1, h2, h3, -⟩ :=
      (ListUsersWithGroup_page envGroups (listReq [] []) (Session.fresh store3)).1
        { UserSet :=
            [{ User := (userRow "C" 3).ToPB, GroupSet := [{ GroupId := "G", GroupName := "staff" }] },
              { User := (userRow "B" 2).ToPB, GroupSet := [{ GroupId := "G", GroupName := "staff" }] },
              { User := (userRow "A" 1).ToPB, GroupSet := [{ GroupId := "G", GroupName := "staff" }] }]
          Total := 3 }
        (ListUsersWithGroup envGroups (listReq [] []) (Session.fresh store3)).2 rfl
    exact ⟨page, h1, h2, h3⟩, rfl⟩

end IM
